import Mathlib

/-!
Verification of the OpenCode Zen provider extension (`index.ts`).

This file shallowly embeds the registry-synchronization engine of the
extension: the merge algorithm (`buildModels`), the authoritative-list
parsing (`fetchZenModels`), the cache validation (`loadModelsFromCache`),
the startup controller (`runStartup`, the `default` export), the dispatch
decision of `streamOpenCodeZen`, and the free-model change tracker.

Conventions of the embedding:
* JavaScript numbers that carry unit prices are modelled as `Rat`.
* Optional / possibly-absent JSON fields are modelled as `Option`.
* Network calls are modelled by their outcome: `none` stands for a
  transport failure, a non-success status, a timeout abort, or a JSON
  parse exception; `some` carries the decoded payload.
* File-system effects are modelled by explicit state passing over
  `CacheState`; a write is assumed to succeed (write errors are logged
  and swallowed by the source, so a run that hits one is outside the
  model).
-/

namespace OpencodeZen

/-- The `Backend` union type of `index.ts`
(`"anthropic" | "openai-responses" | "openai-completions" | "google"`). -/
inductive Backend where
  | anthropic
  | openaiResponses
  | openaiCompletions
  | google
deriving DecidableEq, Repr

/-- The `cost` record of `ModelConfig`. -/
structure Cost where
  input : Rat
  output : Rat
  cacheRead : Rat
  cacheWrite : Rat
deriving DecidableEq, Repr

/-- An element of the `input` modality list (`"text" | "image"`). -/
inductive Modality where
  | text
  | image
deriving DecidableEq, Repr

/-- The `ModelConfig` interface of `index.ts`: one row of the registry. -/
structure ModelConfig where
  id : String
  name : String
  backend : Backend
  reasoning : Bool
  input : List Modality
  cost : Cost
  contextWindow : Nat
  maxTokens : Nat
deriving DecidableEq, Repr

/-- The optional `cost` sub-record of a models.dev entry. -/
structure DevCost where
  input : Option Rat
  output : Option Rat
  cache_read : Option Rat
  cache_write : Option Rat
deriving DecidableEq, Repr

/-- The optional `limit` sub-record of a models.dev entry. -/
structure DevLimit where
  context : Option Nat
  output : Option Nat
deriving DecidableEq, Repr

/-- The `provider` sub-record (`{ npm?, api? }`) of models.dev data. -/
structure DevProvider where
  npm : Option String
  api : Option String
deriving DecidableEq, Repr

/-- One models.dev enrichment entry (the value type of
`ModelsDevAPI["opencode"]["models"]`). -/
structure DevModel where
  id : String
  name : String
  cost : Option DevCost
  limit : Option DevLimit
  reasoning : Option Bool
  attachment : Option Bool
  tool_call : Option Bool
  modalities : Option (List String)
  provider : Option DevProvider
deriving DecidableEq, Repr

/-- The `opencode` section of the models.dev payload: a string-keyed record
of enrichment entries (modelled as an association list, later keys never
shadow earlier ones after JSON parsing so first-match lookup is faithful)
plus the provider-level default routing hint. -/
structure ModelsDevOpencode where
  models : Option (List (String × DevModel))
  provider : Option DevProvider
deriving DecidableEq, Repr

/-- Exact string match of a routing hint against the three explicitly
tested `@ai-sdk/...` package names; every other string (including
`"@ai-sdk/openai-compatible"`) yields `openai-completions`.  This is the
comparison chain that appears twice inside `getBackendFromNpmPackage`. -/
def hintBackend (s : String) : Backend :=
  if s = "@ai-sdk/anthropic" then .anthropic
  else if s = "@ai-sdk/openai" then .openaiResponses
  else if s = "@ai-sdk/google" then .google
  else .openaiCompletions

/-- `getBackendFromNpmPackage` of `index.ts`.  The JavaScript guard
`if (!npmPackage)` is falsy both for an absent hint and for the empty
string, so both fall back to the provider-level default hint. -/
def getBackendFromNpmPackage (npmPackage : Option String) (defaultBackend : Option String) : Backend :=
  match npmPackage with
  | none =>
    match defaultBackend with
    | none => .openaiCompletions
    | some d => hintBackend d
  | some s =>
    if s = "" then
      match defaultBackend with
      | none => .openaiCompletions
      | some d => hintBackend d
    else hintBackend s

/-- The `devModel.attachment || (Array.isArray(modalities) && modalities.includes("image"))`
test of `buildModels`: an optional boolean is truthy only when it is
`some true`. -/
def attachmentOrImage (devModel : DevModel) : Bool :=
  (devModel.attachment == some true) ||
    (match devModel.modalities with
     | some ms => ms.contains "image"
     | none => false)

/-- The enriched-record branch of the `buildModels` loop.  `devModel.id || modelId`
and `devModel.name || modelId` are JavaScript falsy-fallbacks, hence the
empty-string tests. -/
def mkEnriched (modelId : String) (devModel : DevModel) (providerDefaultNpm : Option String) : ModelConfig :=
  { id := if devModel.id ≠ "" then devModel.id else modelId
    name := if devModel.name ≠ "" then devModel.name else modelId
    backend := getBackendFromNpmPackage (devModel.provider.bind (·.npm)) providerDefaultNpm
    reasoning := devModel.reasoning.getD false
    input := if attachmentOrImage devModel then [.text, .image] else [.text]
    cost :=
      { input := (devModel.cost.bind (·.input)).getD 0
        output := (devModel.cost.bind (·.output)).getD 0
        cacheRead := (devModel.cost.bind (·.cache_read)).getD 0
        cacheWrite := (devModel.cost.bind (·.cache_write)).getD 0 }
    contextWindow := (devModel.limit.bind (·.context)).getD 128000
    maxTokens := (devModel.limit.bind (·.output)).getD 16384 }

/-- The defaults branch of the `buildModels` loop (model present in Zen
but absent from models.dev). -/
def defaultModel (modelId : String) : ModelConfig :=
  { id := modelId
    name := modelId
    backend := .openaiCompletions
    reasoning := false
    input := [.text]
    cost := { input := 0, output := 0, cacheRead := 0, cacheWrite := 0 }
    contextWindow := 128000
    maxTokens := 16384 }

/-- String-keyed record lookup (`modelsDevData?.models?.[modelId]`). -/
def lookupDev (entries : List (String × DevModel)) (modelId : String) : Option DevModel :=
  match entries with
  | [] => none
  | (k, v) :: rest => if k = modelId then some v else lookupDev rest modelId

/-- The optional-chained lookup `modelsDevData?.models?.[modelId]`. -/
def devEntry (modelsDevData : Option ModelsDevOpencode) (modelId : String) : Option DevModel :=
  match modelsDevData with
  | none => none
  | some d =>
    match d.models with
    | none => none
    | some entries => lookupDev entries modelId

/-- The record the `buildModels` loop pushes for one Zen model id. -/
def recordFor (modelsDevData : Option ModelsDevOpencode) (modelId : String) : ModelConfig :=
  match devEntry modelsDevData modelId with
  | some devModel =>
    mkEnriched modelId devModel ((modelsDevData.bind (·.provider)).bind (·.npm))
  | none => defaultModel modelId

/-- The full list built by the `buildModels` loop, before the free-only
filter.  This is also the value `saveModelsToCache` persists. -/
def buildModelsCore (zenModelIds : List String) (modelsDevData : Option ModelsDevOpencode) : List ModelConfig :=
  zenModelIds.map (recordFor modelsDevData)

/-- The free-model test `m.cost.input === 0 && m.cost.output === 0`. -/
def isFreeB (m : ModelConfig) : Bool :=
  decide (m.cost.input = 0 ∧ m.cost.output = 0)

/-- `buildModels` of `index.ts`: the merge engine.  Returns the enriched
list, filtered to free models when no API key is configured.  (Its side
effect of persisting the unfiltered list is modelled in
`fetchFreshModels` below.) -/
def buildModels (zenModelIds : List String) (modelsDevData : Option ModelsDevOpencode) (hasApiKey : Bool) : List ModelConfig :=
  if hasApiKey then buildModelsCore zenModelIds modelsDevData
  else (buildModelsCore zenModelIds modelsDevData).filter isFreeB

/-- One entry of the Zen `/v1/models` response's `data` array; only the
`id` field is ever read by the source. -/
structure ZenEntry where
  id : String
deriving DecidableEq, Repr

/-- The shape of the decoded Zen response body as far as the source
inspects it: the `data` field may be absent/falsy, present but not an
array, or an array of entries. -/
inductive ZenData where
  | missing
  | notArray
  | arr (entries : List ZenEntry)
deriving DecidableEq, Repr

/-- `fetchZenModels` of `index.ts` (also the inlined timeout variant in
`fetchFreshModels`, which performs the identical checks): `none` stands
for a transport failure / non-ok status / JSON exception, `.error ()`
for every thrown path, `.ok` for the extracted id list. -/
def fetchZenModels (response : Option ZenData) : Except Unit (List String) :=
  match response with
  | none => .error ()
  | some d =>
    match d with
    | .arr entries => .ok (entries.map (·.id))
    | _ => .error ()

/-- `loadModelsFromCache` of `index.ts`.  `none` as input stands for a
missing file, a read error, a JSON parse error or a non-array document;
the validation loop rejects an empty list and any record with a falsy
`id` or `name` (the `backend` field of a well-typed document is one of
four non-empty enum strings, so its falsiness test never fires here). -/
def loadModelsFromCache (doc : Option (List ModelConfig)) : Option (List ModelConfig) :=
  match doc with
  | none => none
  | some models =>
    if models.isEmpty then none
    else if models.all (fun m => decide (m.id ≠ "" ∧ m.name ≠ "")) then some models
    else none

/-- The three independently persisted cache documents
(`zen-models.json`, `models.json`, `free-model-ids.json`); `none` means
the file has never been written (or is unreadable). -/
structure CacheState where
  zenCache : Option (List String)
  modelsCache : Option (List ModelConfig)
  freeIds : Option (List String)
deriving DecidableEq, Repr

/-- The outcomes of the two outbound network calls of one run:
the Zen `/v1/models` response and the models.dev `opencode` section
(`none` when the fetch failed, timed out, or the section was absent). -/
structure FetchEnv where
  zenResponse : Option ZenData
  enrichment : Option ModelsDevOpencode
deriving DecidableEq, Repr

/-- `fetchFreshModels` of `index.ts`, with its cache writes made
explicit: on a successful authoritative fetch it persists the id list
(`saveZenModelsToCache`) and the unfiltered enriched list
(`saveModelsToCache`, called from inside `buildModels`); on failure it
returns `none` having written nothing.  Enrichment failure never fails
the call. -/
def fetchFreshModels (hasApiKey : Bool) (env : FetchEnv) (s : CacheState) :
    Option (List ModelConfig) × CacheState :=
  match fetchZenModels env.zenResponse with
  | .error _ => (none, s)
  | .ok zenModelIds =>
    (some (buildModels zenModelIds env.enrichment hasApiKey),
     { s with
        zenCache := some zenModelIds
        modelsCache := some (buildModelsCore zenModelIds env.enrichment) })

/-- The free-id projection `models.filter(free).map(m => m.id)`. -/
def freeIdsOf (models : List ModelConfig) : List String :=
  (models.filter isFreeB).map (·.id)

/-- The observable outcome of one startup run: the sequence of registry
publications (`registerModels` calls) in order, the final cache state,
and whether the terminal cold-start failure was reported. -/
structure RunResult where
  publishes : List (List ModelConfig)
  finalState : CacheState
  terminalError : Bool
deriving DecidableEq, Repr

/-- The `default` export of `index.ts` (the synchronization controller),
as a pure function of the run's fetch outcomes and the starting cache
state.  The warm fast path publishes the cached registry (free-filtered
without a key) and then applies the background refresh; the cold path
does one deadline-bounded fetch and abandons registration when it fails
or produces an empty registry. -/
def runStartup (hasApiKey : Bool) (env : FetchEnv) (s : CacheState) : RunResult :=
  match loadModelsFromCache s.modelsCache with
  | some cachedModels =>
    let models := if hasApiKey then cachedModels else cachedModels.filter isFreeB
    let res := fetchFreshModels hasApiKey env s
    match res.1 with
    | none => { publishes := [models], finalState := res.2, terminalError := false }
    | some freshModels =>
      if freshModels.isEmpty then
        { publishes := [models], finalState := res.2, terminalError := false }
      else
        { publishes := [models, freshModels]
          finalState := { res.2 with freeIds := some (freeIdsOf freshModels) }
          terminalError := false }
  | none =>
    let res := fetchFreshModels hasApiKey env s
    match res.1 with
    | none => { publishes := [], finalState := res.2, terminalError := true }
    | some models =>
      if models.isEmpty then
        { publishes := [], finalState := res.2, terminalError := true }
      else
        { publishes := [models]
          finalState := { res.2 with freeIds := some (freeIdsOf models) }
          terminalError := false }

/-- The registry backing `MODEL_MAP` at the end of a run: the last
published list, or the empty registry when nothing was registered. -/
def finalRegistry (r : RunResult) : List ModelConfig :=
  (r.publishes.getLast?).getD []

/-- `MODEL_MAP.get(modelId)` after `registerModels` inserted the
published records in order (a later record with the same id overwrites
an earlier one, as `Map.set` does). -/
def lookupModel (registry : List ModelConfig) (modelId : String) : Option ModelConfig :=
  registry.foldl (fun acc m => if m.id = modelId then some m else acc) none

/-- The `!apiKey` truthiness test on `options?.apiKey`. -/
def hasKey (apiKey : Option String) : Bool :=
  match apiKey with
  | none => false
  | some s => !(s == "")

/-- The observable outcome of `streamOpenCodeZen` at the dispatch
boundary: either an error event pushed onto the returned stream (the
`catch` arm — nothing is thrown past the boundary) or a dispatch to the
backend's stream function. -/
inductive DispatchOutcome where
  | errorEvent (message : String)
  | dispatched (backend : Backend)
deriving DecidableEq, Repr

/-- The dispatch decision of `streamOpenCodeZen`: registry lookup, then
the credential gate for non-free records, then routing via
`getStreamFunction cfg.backend`. -/
def streamDecision (registry : List ModelConfig) (apiKey : Option String) (modelId : String) : DispatchOutcome :=
  match lookupModel registry modelId with
  | none => .errorEvent ("Unknown model: " ++ modelId)
  | some cfg =>
    if !(hasKey apiKey) && !(isFreeB cfg) then
      .errorEvent "No OpenCode API key. Set OPENCODE_API_KEY env var. (This model requires an API key.)"
    else .dispatched cfg.backend

/-- `currentFreeIds.filter(id => !previousFreeIds.includes(id))` — the
`added` half of the free-model change tracker. -/
def addedIds (previousFreeIds currentFreeIds : List String) : List String :=
  currentFreeIds.filter (fun id => decide (id ∉ previousFreeIds))

/-- `previousFreeIds.filter(id => !currentFreeIds.includes(id))` — the
`removed` half of the free-model change tracker. -/
def removedIds (previousFreeIds currentFreeIds : List String) : List String :=
  previousFreeIds.filter (fun id => decide (id ∉ currentFreeIds))

/-- An enrichment payload is well-formed when every entry's own `id`
field is empty or agrees with its record key — true of actual models.dev
data, where entries are keyed by their id. -/
def wellFormedEnrichment (modelsDevData : Option ModelsDevOpencode) : Prop :=
  ∀ d, modelsDevData = some d → ∀ p ∈ d.models.getD [], p.2.id = "" ∨ p.2.id = p.1

/-- A cache state is consistent when the enriched-registry document, if
present, only holds identifiers listed by the cached authoritative id
list.  The extension's own writes keep the two documents in step. -/
def consistentState (s : CacheState) : Prop :=
  ∀ ms, s.modelsCache = some ms → ∃ zc, s.zenCache = some zc ∧ ∀ m ∈ ms, m.id ∈ zc

theorem lookupDev_mem {entries : List (String × DevModel)} {modelId : String} {v : DevModel}
    (h : lookupDev entries modelId = some v) : (modelId, v) ∈ entries := by
  induction entries with
  | nil => simp [lookupDev] at h
  | cons p rest ih =>
    obtain ⟨k, w⟩ := p
    rw [lookupDev] at h
    by_cases hk : k = modelId
    · rw [if_pos hk] at h
      subst hk
      cases h
      exact List.mem_cons_self _ _
    · rw [if_neg hk] at h
      exact List.mem_cons_of_mem _ (ih h)

theorem recordFor_id {modelsDevData : Option ModelsDevOpencode}
    (hwf : wellFormedEnrichment modelsDevData) (modelId : String) :
    (recordFor modelsDevData modelId).id = modelId := by
  cases hd : modelsDevData with
  | none => subst hd; rfl
  | some dd =>
    subst hd
    cases hm : dd.models with
    | none =>
      have hde : devEntry (some dd) modelId = none := by simp [devEntry, hm]
      simp [recordFor, hde, defaultModel]
    | some entries =>
      cases hl : lookupDev entries modelId with
      | none =>
        have hde : devEntry (some dd) modelId = none := by simp [devEntry, hm, hl]
        simp [recordFor, hde, defaultModel]
      | some dev =>
        have hde : devEntry (some dd) modelId = some dev := by simp [devEntry, hm, hl]
        have hid : dev.id = "" ∨ dev.id = modelId := by
          have := hwf dd rfl (modelId, dev) (by rw [hm]; simpa using lookupDev_mem hl)
          simpa using this
        simp only [recordFor, hde]
        show (if dev.id ≠ "" then dev.id else modelId) = modelId
        rcases hid with h0 | h1
        · simp [h0]
        · rw [h1]
          split <;> rfl

theorem buildModelsCore_map_id {d : Option ModelsDevOpencode}
    (hwf : wellFormedEnrichment d) (ids : List String) :
    (buildModelsCore ids d).map (·.id) = ids := by
  induction ids with
  | nil => rfl
  | cons a rest ih =>
    simp only [buildModelsCore, List.map_cons] at ih ⊢
    rw [recordFor_id hwf, ih]

theorem mem_buildModelsCore_id {d : Option ModelsDevOpencode} {ids : List String}
    {m : ModelConfig} (hwf : wellFormedEnrichment d) (hm : m ∈ buildModelsCore ids d) :
    m.id ∈ ids := by
  unfold buildModelsCore at hm
  obtain ⟨a, ha, rfl⟩ := List.mem_map.1 hm
  rw [recordFor_id hwf]
  exact ha

theorem mem_buildModels_id {d : Option ModelsDevOpencode} {ids : List String}
    {m : ModelConfig} {k : Bool} (hwf : wellFormedEnrichment d)
    (hm : m ∈ buildModels ids d k) : m.id ∈ ids := by
  unfold buildModels at hm
  cases k with
  | true => exact mem_buildModelsCore_id hwf (by simpa using hm)
  | false => exact mem_buildModelsCore_id hwf (List.mem_of_mem_filter (by simpa using hm))

theorem loadModelsFromCache_some {doc : Option (List ModelConfig)} {models : List ModelConfig}
    (h : loadModelsFromCache doc = some models) : doc = some models := by
  cases doc with
  | none => cases h
  | some ms =>
    have h2 : (if ms.isEmpty = true then none
        else if (ms.all fun m => decide (m.id ≠ "" ∧ m.name ≠ "")) = true then some ms
        else none) = some models := h
    by_cases he : ms.isEmpty = true
    · rw [if_pos he] at h2; cases h2
    · rw [if_neg he] at h2
      by_cases ha : ms.all (fun m => decide (m.id ≠ "" ∧ m.name ≠ "")) = true
      · rw [if_pos ha] at h2; cases h2; rfl
      · rw [if_neg ha] at h2; cases h2

theorem recordFor_none (modelId : String) : recordFor none modelId = defaultModel modelId := rfl

theorem isFreeB_defaultModel (modelId : String) : isFreeB (defaultModel modelId) = true := rfl

theorem buildModels_absent (ids : List String) (k : Bool) :
    buildModels ids none k = ids.map defaultModel := by
  have hmap : buildModelsCore ids none = ids.map defaultModel :=
    List.map_congr_left fun a _ => recordFor_none a
  cases k with
  | true => simpa [buildModels] using hmap
  | false =>
    simp only [buildModels, Bool.false_eq_true, if_false, hmap]
    rw [List.filter_eq_self.2]
    intro a ha
    obtain ⟨i, _, rfl⟩ := List.mem_map.1 ha
    exact isFreeB_defaultModel i

/-- C5: for every pair of id sequences, the change-tracker diff returns
`added` = the elements of `curr` not in `prev` in `curr`'s order, and
`removed` = the elements of `prev` not in `curr` in `prev`'s order;
consequently `added` and `removed` are disjoint, `added` together with
`curr ∩ prev` equals `curr`, and `removed` together with `curr ∩ prev`
equals `prev` (as sets). -/
theorem claim_C5_diff (prev curr : List String) :
    (∀ x, x ∈ addedIds prev curr ↔ x ∈ curr ∧ x ∉ prev) ∧
    (∀ x, x ∈ removedIds prev curr ↔ x ∈ prev ∧ x ∉ curr) ∧
    (addedIds prev curr).Sublist curr ∧
    (removedIds prev curr).Sublist prev ∧
    (∀ x, ¬(x ∈ addedIds prev curr ∧ x ∈ removedIds prev curr)) ∧
    (∀ x, (x ∈ addedIds prev curr ∨ (x ∈ curr ∧ x ∈ prev)) ↔ x ∈ curr) ∧
    (∀ x, (x ∈ removedIds prev curr ∨ (x ∈ curr ∧ x ∈ prev)) ↔ x ∈ prev) := by
  refine ⟨?_, ?_, ?_, ?_, ?_, ?_, ?_⟩
  · intro x; simp [addedIds, List.mem_filter]
  · intro x; simp [removedIds, List.mem_filter]
  · exact List.filter_sublist _
  · exact List.filter_sublist _
  · intro x; simp [addedIds, removedIds, List.mem_filter]; tauto
  · intro x; simp [addedIds, List.mem_filter]; tauto
  · intro x; simp [removedIds, List.mem_filter]; tauto

/-- C5 witness: the diff at `prev = ["m2"]`, `curr = ["m1"]` classifies
`"m1"` as added. -/
theorem claim_C5_diff_witness : "m1" ∈ addedIds ["m2"] ["m1"] :=
  ((claim_C5_diff ["m2"] ["m1"]).1 "m1").mpr (by decide)

/-- C4: the dispatch decision of `streamOpenCodeZen` is a total function
into `DispatchOutcome` (errors are pushed as error events on the stream,
never thrown past the boundary): an unknown id yields the
`Unknown model` error event and no dispatch; a non-free record with no
credential yields the credential error event and no dispatch; a free
record dispatches without ever requiring a credential. -/
theorem claim_C4_dispatch (registry : List ModelConfig) (apiKey : Option String) (modelId : String) :
    (lookupModel registry modelId = none →
      streamDecision registry apiKey modelId = .errorEvent ("Unknown model: " ++ modelId)) ∧
    (∀ cfg, lookupModel registry modelId = some cfg → isFreeB cfg = false → hasKey apiKey = false →
      streamDecision registry apiKey modelId =
        .errorEvent "No OpenCode API key. Set OPENCODE_API_KEY env var. (This model requires an API key.)") ∧
    (∀ cfg, lookupModel registry modelId = some cfg → isFreeB cfg = true →
      streamDecision registry apiKey modelId = .dispatched cfg.backend) ∧
    (∀ cfg, lookupModel registry modelId = some cfg → hasKey apiKey = true →
      streamDecision registry apiKey modelId = .dispatched cfg.backend) := by
  refine ⟨?_, ?_, ?_, ?_⟩
  · intro h; simp [streamDecision, h]
  · intro cfg h hfree hkey; simp [streamDecision, h, hfree, hkey]
  · intro cfg h hfree; simp [streamDecision, h, hfree]
  · intro cfg h hkey; simp [streamDecision, h, hkey]

/-- C4 witness: on the empty registry, dispatching `"m"` yields the
unknown-model error event. -/
theorem claim_C4_dispatch_witness :
    streamDecision [] none "m" = .errorEvent ("Unknown model: " ++ "m") :=
  (claim_C4_dispatch [] none "m").1 rfl

/-- C6: for every id with no enrichment entry the merge synthesizes the
default record (generic `openai-completions` backend, `{text}` input,
all four costs 0, context window 128000, max output 16384, reasoning
false, display name = id), and merging any id sequence with absent
enrichment yields exactly the default record per id, every one of them
free. -/
theorem claim_C6_defaults :
    (∀ ids d k modelId, modelId ∈ ids → devEntry d modelId = none →
       defaultModel modelId ∈ buildModels ids d k) ∧
    (∀ modelId, (defaultModel modelId).id = modelId ∧
       (defaultModel modelId).name = modelId ∧
       (defaultModel modelId).backend = .openaiCompletions ∧
       (defaultModel modelId).input = [.text] ∧
       (defaultModel modelId).cost = ⟨0, 0, 0, 0⟩ ∧
       (defaultModel modelId).contextWindow = 128000 ∧
       (defaultModel modelId).maxTokens = 16384 ∧
       (defaultModel modelId).reasoning = false) ∧
    (∀ ids k, buildModels ids none k = ids.map defaultModel) ∧
    (∀ ids k m, m ∈ buildModels ids none k → isFreeB m = true) := by
  refine ⟨?_, ?_, buildModels_absent, ?_⟩
  · intro ids d k modelId hmem hnone
    have hrec : recordFor d modelId = defaultModel modelId := by
      simp [recordFor, hnone]
    have hcore : defaultModel modelId ∈ buildModelsCore ids d := by
      unfold buildModelsCore
      rw [← hrec]
      exact List.mem_map_of_mem _ hmem
    cases k with
    | true => simpa [buildModels] using hcore
    | false =>
      simp only [buildModels, Bool.false_eq_true, if_false]
      exact List.mem_filter.2 ⟨hcore, isFreeB_defaultModel modelId⟩
  · intro modelId
    exact ⟨rfl, rfl, rfl, rfl, rfl, rfl, rfl, rfl⟩
  · intro ids k m hm
    rw [buildModels_absent] at hm
    obtain ⟨i, _, rfl⟩ := List.mem_map.1 hm
    exact isFreeB_defaultModel i

/-- C6 witness: with enrichment entirely absent, merging `["m1", "m2"]`
publishes the two default records, both free (Scenario A). -/
theorem claim_C6_defaults_witness :
    defaultModel "m1" ∈ buildModels ["m1", "m2"] none false ∧
    buildModels ["m1", "m2"] none false = [defaultModel "m1", defaultModel "m2"] :=
  ⟨claim_C6_defaults.1 ["m1", "m2"] none false "m1" (by decide) rfl,
   claim_C6_defaults.2.2.1 ["m1", "m2"] false⟩

/-- The Scenario B enrichment entry: cost `{input: 0.01, output: 0.03}`,
no entry-level routing hint. -/
def scenarioBDev : DevModel :=
  { id := "m1"
    name := "m1"
    cost := some { input := some (mkRat 1 100), output := some (mkRat 3 100),
                   cache_read := none, cache_write := none }
    limit := none
    reasoning := none
    attachment := none
    tool_call := none
    modalities := none
    provider := none }

/-- The Scenario B enrichment payload: provider-level default hint is the
anthropic package. -/
def scenarioBEnrichment : ModelsDevOpencode :=
  { models := some [("m1", scenarioBDev)]
    provider := some { npm := some "@ai-sdk/anthropic", api := none } }

/-- C7: the backend is chosen by exact string match of the entry's
routing hint against the four known hint values; when the entry omits
the hint the provider-level default hint is matched instead, and when
neither matches the generic default backend results.  In particular an
entry with no hint under an anthropic provider default yields the
anthropic backend (Scenario B), and a record with positive input and
output costs is not free. -/
theorem claim_C7_backend :
    (∀ d, getBackendFromNpmPackage (some "@ai-sdk/anthropic") d = .anthropic) ∧
    (∀ d, getBackendFromNpmPackage (some "@ai-sdk/openai") d = .openaiResponses) ∧
    (∀ d, getBackendFromNpmPackage (some "@ai-sdk/google") d = .google) ∧
    (∀ d, getBackendFromNpmPackage (some "@ai-sdk/openai-compatible") d = .openaiCompletions) ∧
    (∀ s d, s ≠ "" → s ≠ "@ai-sdk/anthropic" → s ≠ "@ai-sdk/openai" → s ≠ "@ai-sdk/google" →
      getBackendFromNpmPackage (some s) d = .openaiCompletions) ∧
    (getBackendFromNpmPackage none (some "@ai-sdk/anthropic") = .anthropic) ∧
    (getBackendFromNpmPackage none (some "@ai-sdk/openai") = .openaiResponses) ∧
    (getBackendFromNpmPackage none (some "@ai-sdk/google") = .google) ∧
    (∀ d, d ≠ some "@ai-sdk/anthropic" → d ≠ some "@ai-sdk/openai" → d ≠ some "@ai-sdk/google" →
      getBackendFromNpmPackage none d = .openaiCompletions) ∧
    ((buildModels ["m1"] (some scenarioBEnrichment) true).map (·.backend) = [.anthropic] ∧
     (buildModels ["m1"] (some scenarioBEnrichment) true).map isFreeB = [false]) ∧
    (∀ m : ModelConfig, 0 < m.cost.input → 0 < m.cost.output → isFreeB m = false) := by
  refine ⟨fun d => rfl, fun d => rfl, fun d => rfl, fun d => rfl, ?_, rfl, rfl, rfl, ?_, ?_, ?_⟩
  · intro s d h0 h1 h2 h3
    simp [getBackendFromNpmPackage, hintBackend, h0, h1, h2, h3]
  · intro d h1 h2 h3
    cases d with
    | none => rfl
    | some s =>
      simp only [Ne, Option.some.injEq] at h1 h2 h3
      simp [getBackendFromNpmPackage, hintBackend, h1, h2, h3]
  · constructor <;> decide
  · intro m h1 h2
    rw [isFreeB, decide_eq_false_iff_not]
    rintro ⟨e1, _⟩
    exact h1.ne' e1

/-- C7 witness: an unknown non-empty hint maps to the generic default
backend, and Scenario B's record is routed to anthropic and is not
free. -/
theorem claim_C7_backend_witness :
    getBackendFromNpmPackage (some "custom-pkg") none = .openaiCompletions ∧
    (buildModels ["m1"] (some scenarioBEnrichment) true).map (·.backend) = [.anthropic] :=
  ⟨claim_C7_backend.2.2.2.2.1 "custom-pkg" none (by decide) (by decide) (by decide) (by decide),
   claim_C7_backend.2.2.2.2.2.2.2.2.2.1.1⟩

/-- An enrichment entry whose own `id` field (`"x"`) differs from its
record key (`"m1"`); `buildModels` then emits the entry's id
(`devModel.id || modelId`), renaming the authoritative identifier. -/
def renameDev : DevModel :=
  { id := "x"
    name := "x"
    cost := none
    limit := none
    reasoning := none
    attachment := none
    tool_call := none
    modalities := none
    provider := none }

/-- Enrichment payload keying `renameDev` under `"m1"`. -/
def renameEnrichment : ModelsDevOpencode :=
  { models := some [("m1", renameDev)], provider := none }

/-- C1 counterexample: for the non-empty authoritative list `["m1"]` and
an enrichment map whose entry for `"m1"` carries id `"x"`, the merged
registry's identifier sequence is `["x"]`, not the input id set —
`buildModels` takes `devModel.id || modelId`, so an enrichment entry can
rename an authoritative id. -/
theorem claim_C1_counterexample :
    (buildModels ["m1"] (some renameEnrichment) true).map (·.id) ≠ ["m1"] := by
  decide

/-- C1 amended: provided every enrichment entry's `id` field is empty or
equal to its record key, `buildModels` with a credential configured
produces a registry whose identifier sequence equals the input id
sequence exactly (same set, same order); without a credential the result
is the free-record subsequence of that registry. -/
theorem claim_C1_amended (ids : List String) (d : Option ModelsDevOpencode)
    (_hne : ids ≠ []) (hwf : wellFormedEnrichment d) :
    (buildModels ids d true).map (·.id) = ids ∧
    buildModels ids d false = (buildModels ids d true).filter isFreeB := by
  refine ⟨?_, rfl⟩
  simpa [buildModels] using buildModelsCore_map_id hwf ids

/-- C1 witness: merging `["m1", "m2"]` with absent enrichment keeps the
identifier sequence. -/
theorem claim_C1_amended_witness :
    (buildModels ["m1", "m2"] none true).map (·.id) = ["m1", "m2"] ∧
    buildModels ["m1", "m2"] none false = (buildModels ["m1", "m2"] none true).filter isFreeB :=
  claim_C1_amended ["m1", "m2"] none (by decide) (fun d h => by cases h)

/-- C8 counterexample: the registry holding the single record
`defaultModel ""` (a record the merge itself produces when Zen lists the
empty id) does not survive the cache round trip: `loadModelsFromCache`
rejects any record with a falsy `id` or `name`, so reloading yields
`none` instead of the original registry. -/
theorem claim_C8_counterexample :
    loadModelsFromCache (some [defaultModel ""]) = none ∧
    loadModelsFromCache (some [defaultModel ""]) ≠ some [defaultModel ""] := by
  constructor <;> decide

/-- C8 amended: for every registry with at least one record in which
every record has a non-empty id and a non-empty display name,
serializing to the persisted form and reloading yields the registry
unchanged, field for field. -/
theorem claim_C8_amended (models : List ModelConfig) (hne : models ≠ [])
    (hok : ∀ m ∈ models, m.id ≠ "" ∧ m.name ≠ "") :
    loadModelsFromCache (some models) = some models := by
  have h1 : models.isEmpty = false := by
    cases models with
    | nil => exact absurd rfl hne
    | cons a rest => rfl
  have h2 : models.all (fun m => decide (m.id ≠ "" ∧ m.name ≠ "")) = true := by
    rw [List.all_eq_true]
    intro m hm
    exact decide_eq_true (hok m hm)
  simp only [loadModelsFromCache, h1, Bool.false_eq_true, if_false, h2, if_true]

/-- C8 witness: the one-record registry `[defaultModel "m1"]` round-trips
unchanged. -/
theorem claim_C8_amended_witness :
    loadModelsFromCache (some [defaultModel "m1"]) = some [defaultModel "m1"] :=
  claim_C8_amended [defaultModel "m1"] (by decide) (by decide)

/-- C3 counterexample: on a response whose `data` field is the empty
array, `fetchZenModels` succeeds with the empty id sequence instead of
reporting failure — the emptiness check the spec attributes to the
authoritative-list operation does not exist there. -/
theorem claim_C3_counterexample :
    fetchZenModels (some (ZenData.arr [])) = Except.ok ([] : List String) ∧
    fetchZenModels (some (ZenData.arr [])) ≠ Except.error () :=
  ⟨rfl, fun h => Except.noConfusion h⟩

/-- C3 amended: `fetchZenModels` fails exactly when the transport fails
or the `data` field is missing or not a sequence; an empty `data` array
yields success with the empty id sequence.  Emptiness is instead
rejected downstream: a run whose authoritative fetch returns the empty
list writes no free-id snapshot, never re-publishes, and on a cold start
reports the terminal failure with nothing published. -/
theorem claim_C3_amended :
    (∀ response : Option ZenData,
       fetchZenModels response = .error () ↔
         (response = none ∨ response = some .missing ∨ response = some .notArray)) ∧
    (∀ entries, fetchZenModels (some (.arr entries)) = .ok (entries.map (·.id))) ∧
    (∀ k env s, fetchZenModels env.zenResponse = .ok [] →
       (runStartup k env s).finalState.freeIds = s.freeIds ∧
       (runStartup k env s).publishes.length ≤ 1 ∧
       (loadModelsFromCache s.modelsCache = none →
         (runStartup k env s).terminalError = true ∧ (runStartup k env s).publishes = [])) := by
  refine ⟨?_, fun entries => rfl, ?_⟩
  · intro response
    constructor
    · intro h
      match response with
      | none => exact Or.inl rfl
      | some .missing => exact Or.inr (Or.inl rfl)
      | some .notArray => exact Or.inr (Or.inr rfl)
      | some (.arr entries) => exact absurd h (fun hh => Except.noConfusion hh)
    · rintro (rfl | rfl | rfl) <;> rfl
  · intro k env s hok
    have hf : fetchFreshModels k env s =
        (some [], { s with zenCache := some [], modelsCache := some [] }) := by
      unfold fetchFreshModels
      rw [hok]
      cases k <;> simp [buildModels, buildModelsCore]
    cases hload : loadModelsFromCache s.modelsCache with
    | some cached =>
      refine ⟨?_, ?_, ?_⟩
      · simp [runStartup, hload, hf]
      · simp [runStartup, hload, hf]
      · intro h
        exact Option.noConfusion h
    | none =>
      refine ⟨?_, ?_, ?_⟩
      · simp [runStartup, hload, hf]
      · simp [runStartup, hload, hf]
      · intro _; constructor <;> simp [runStartup, hload, hf]

/-- C3 witness: a cold-start run whose authoritative fetch returns an
empty `data` array publishes nothing, reports the terminal failure, and
leaves the free-id snapshot untouched. -/
theorem claim_C3_amended_witness :
    (runStartup true ⟨some (.arr []), none⟩ ⟨none, none, none⟩).finalState.freeIds =
      (⟨none, none, none⟩ : CacheState).freeIds ∧
    (runStartup true ⟨some (.arr []), none⟩ ⟨none, none, none⟩).publishes.length ≤ 1 ∧
    (loadModelsFromCache (⟨none, none, none⟩ : CacheState).modelsCache = none →
      (runStartup true ⟨some (.arr []), none⟩ ⟨none, none, none⟩).terminalError = true ∧
      (runStartup true ⟨some (.arr []), none⟩ ⟨none, none, none⟩).publishes = []) :=
  claim_C3_amended.2.2 true ⟨some (.arr []), none⟩ ⟨none, none, none⟩ rfl

/-- C10: on the warm fast path, if the background refresh's
authoritative fetch fails, the whole run makes exactly the one initial
cache publish (the published registry is untouched by the refresh) and
the final cache state — authoritative id list, enriched registry and
free-id snapshot — equals the starting state; moreover on this path the
free-id snapshot changes only when the refresh succeeds with a
non-empty result. -/
theorem claim_C10_frame (hasApiKey : Bool) (env : FetchEnv) (s : CacheState)
    (cached : List ModelConfig)
    (hwarm : loadModelsFromCache s.modelsCache = some cached)
    (hfail : fetchZenModels env.zenResponse = .error ()) :
    (runStartup hasApiKey env s).publishes =
      [if hasApiKey then cached else cached.filter isFreeB] ∧
    (runStartup hasApiKey env s).finalState = s ∧
    (∀ env2 : FetchEnv,
       (runStartup hasApiKey env2 s).finalState.freeIds ≠ s.freeIds →
       ∃ fresh, (fetchFreshModels hasApiKey env2 s).1 = some fresh ∧ fresh ≠ []) := by
  have hf : fetchFreshModels hasApiKey env s = (none, s) := by
    unfold fetchFreshModels; rw [hfail]
  refine ⟨?_, ?_, ?_⟩
  · simp [runStartup, hwarm, hf]
  · simp [runStartup, hwarm, hf]
  · intro env2 hne2
    cases hz : fetchZenModels env2.zenResponse with
    | error e =>
      have hf2 : fetchFreshModels hasApiKey env2 s = (none, s) := by
        unfold fetchFreshModels; rw [hz]
      exact absurd (by simp [runStartup, hwarm, hf2]) hne2
    | ok ids =>
      have hf2 : fetchFreshModels hasApiKey env2 s =
          (some (buildModels ids env2.enrichment hasApiKey),
           { s with zenCache := some ids,
                    modelsCache := some (buildModelsCore ids env2.enrichment) }) := by
        unfold fetchFreshModels; rw [hz]
      by_cases hemp : (buildModels ids env2.enrichment hasApiKey).isEmpty = true
      · exact absurd (by simp [runStartup, hwarm, hf2, hemp]) hne2
      · refine ⟨buildModels ids env2.enrichment hasApiKey, by rw [hf2], ?_⟩
        intro hnil
        rw [hnil] at hemp
        exact hemp rfl

/-- C10 witness: a warm run whose refresh fetch fails leaves cache state
and publication exactly as served from cache. -/
theorem claim_C10_frame_witness :
    (runStartup true ⟨none, none⟩ ⟨some ["m1"], some [defaultModel "m1"], none⟩).publishes =
      [if true then [defaultModel "m1"] else [defaultModel "m1"].filter isFreeB] ∧
    (runStartup true ⟨none, none⟩ ⟨some ["m1"], some [defaultModel "m1"], none⟩).finalState =
      ⟨some ["m1"], some [defaultModel "m1"], none⟩ ∧
    (∀ env2 : FetchEnv,
       (runStartup true env2 ⟨some ["m1"], some [defaultModel "m1"], none⟩).finalState.freeIds ≠
         (⟨some ["m1"], some [defaultModel "m1"], none⟩ : CacheState).freeIds →
       ∃ fresh,
         (fetchFreshModels true env2 ⟨some ["m1"], some [defaultModel "m1"], none⟩).1 = some fresh ∧
         fresh ≠ []) :=
  claim_C10_frame true ⟨none, none⟩ ⟨some ["m1"], some [defaultModel "m1"], none⟩
    [defaultModel "m1"] (by decide) rfl

/-- C9: on a cold start with no credential, when the authoritative fetch
succeeds with a non-empty id list but the merged registry has no free
record, the run publishes nothing, any dispatch lookup misses, and the
run reports the same terminal failure (same publications, same error
flag) as a run whose authoritative fetch failed outright. -/
theorem claim_C9_cold_no_free (env : FetchEnv) (s : CacheState) (ids : List String)
    (hcold : loadModelsFromCache s.modelsCache = none)
    (hfetch : fetchZenModels env.zenResponse = .ok ids)
    (_hne : ids ≠ [])
    (hnofree : (buildModelsCore ids env.enrichment).filter isFreeB = []) :
    (runStartup false env s).publishes = [] ∧
    (runStartup false env s).terminalError = true ∧
    (∀ modelId, lookupModel (finalRegistry (runStartup false env s)) modelId = none) ∧
    (runStartup false env s).publishes =
      (runStartup false { env with zenResponse := none } s).publishes ∧
    (runStartup false env s).terminalError =
      (runStartup false { env with zenResponse := none } s).terminalError := by
  have hf : fetchFreshModels false env s =
      (some [],
       { s with zenCache := some ids,
                modelsCache := some (buildModelsCore ids env.enrichment) }) := by
    unfold fetchFreshModels; rw [hfetch]
    simp [buildModels, hnofree]
  have hf2 : fetchFreshModels false { env with zenResponse := none } s = (none, s) := rfl
  have hpub : (runStartup false env s).publishes = [] := by
    simp [runStartup, hcold, hf]
  have hterm : (runStartup false env s).terminalError = true := by
    simp [runStartup, hcold, hf]
  refine ⟨hpub, hterm, ?_, ?_, ?_⟩
  · intro modelId
    simp [finalRegistry, hpub, lookupModel]
  · rw [hpub]; simp [runStartup, hcold, hf2]
  · rw [hterm]; simp [runStartup, hcold, hf2]

/-- C9 witness: a cold keyless run where Zen lists only the paid
Scenario B model publishes nothing and reports the terminal failure. -/
theorem claim_C9_cold_no_free_witness :
    (runStartup false ⟨some (.arr [⟨"m1"⟩]), some scenarioBEnrichment⟩ ⟨none, none, none⟩).publishes = [] ∧
    (runStartup false ⟨some (.arr [⟨"m1"⟩]), some scenarioBEnrichment⟩ ⟨none, none, none⟩).terminalError = true :=
  have h := claim_C9_cold_no_free ⟨some (.arr [⟨"m1"⟩]), some scenarioBEnrichment⟩
    ⟨none, none, none⟩ ["m1"] rfl rfl (by decide) (by decide)
  ⟨h.1, h.2.1⟩

/-- C2 counterexample: the published-identifier invariant fails as
stated.  On a cold start with empty caches, an authoritative fetch
returning `["m1"]` and an enrichment entry carrying id `"x"` under key
`"m1"` make the run publish a registry containing `"x"` — an identifier
absent both from the authoritative fetch and from the (absent) cached
authoritative list. -/
theorem claim_C2_counterexample :
    ¬ (∀ p ∈ (runStartup true ⟨some (.arr [⟨"m1"⟩]), some renameEnrichment⟩
              ⟨none, none, none⟩).publishes, ∀ m ∈ p,
         (∃ ids, fetchZenModels (some (.arr [⟨"m1"⟩])) = .ok ids ∧ m.id ∈ ids) ∨
         (∃ zc, (⟨none, none, none⟩ : CacheState).zenCache = some zc ∧ m.id ∈ zc)) := by
  intro h
  have hpub : (runStartup true ⟨some (.arr [⟨"m1"⟩]), some renameEnrichment⟩
      ⟨none, none, none⟩).publishes = [[recordFor (some renameEnrichment) "m1"]] := by
    decide
  have hm := h [recordFor (some renameEnrichment) "m1"]
    (by rw [hpub]; exact List.mem_singleton.2 rfl)
    (recordFor (some renameEnrichment) "m1") (List.mem_singleton.2 rfl)
  rcases hm with ⟨ids, hok, hmem⟩ | ⟨zc, hzc, _⟩
  · have hids : ids = ["m1"] := by
      have h2 : (Except.ok ["m1"] : Except Unit (List String)) = Except.ok ids := hok
      cases h2; rfl
    rw [hids] at hmem
    have hx : (recordFor (some renameEnrichment) "m1").id = "x" := by decide
    rw [hx] at hmem
    simp at hmem
  · exact Option.noConfusion hzc

/-- C2 amended: provided every enrichment entry's id field is empty or
equal to its key, and the starting caches are consistent (the cached
enriched registry only holds ids of the cached authoritative list, as
the extension's own writes guarantee), every registry published during a
run — cold start, warm fast path, or after the background refresh —
contains only identifiers from the run's successful authoritative fetch
or from the cached authoritative id list, and the run leaves the caches
consistent again. -/
theorem claim_C2_amended (hasApiKey : Bool) (env : FetchEnv) (s : CacheState)
    (hwf : wellFormedEnrichment env.enrichment) (hcons : consistentState s) :
    (∀ p ∈ (runStartup hasApiKey env s).publishes, ∀ m ∈ p,
       (∃ ids, fetchZenModels env.zenResponse = .ok ids ∧ m.id ∈ ids) ∨
       (∃ zc, s.zenCache = some zc ∧ m.id ∈ zc)) ∧
    consistentState (runStartup hasApiKey env s).finalState := by
  have hcachedPub : ∀ cached, loadModelsFromCache s.modelsCache = some cached →
      ∀ m ∈ (if hasApiKey then cached else cached.filter isFreeB),
        ∃ zc, s.zenCache = some zc ∧ m.id ∈ zc := by
    intro cached hload m hm
    obtain ⟨zc, hzc, hsub⟩ := hcons cached (loadModelsFromCache_some hload)
    refine ⟨zc, hzc, hsub m ?_⟩
    cases hasApiKey with
    | true => simpa using hm
    | false => exact List.mem_of_mem_filter (by simpa using hm)
  have hconsW : ∀ ids f, consistentState
      ⟨some ids, some (buildModelsCore ids env.enrichment), f⟩ := by
    intro ids f ms hms
    have hms2 : buildModelsCore ids env.enrichment = ms := by
      cases hms; rfl
    subst hms2
    exact ⟨ids, rfl, fun m hm => mem_buildModelsCore_id hwf hm⟩
  cases hload : loadModelsFromCache s.modelsCache with
  | some cached =>
    cases hz : fetchZenModels env.zenResponse with
    | error e =>
      have hf : fetchFreshModels hasApiKey env s = (none, s) := by
        unfold fetchFreshModels; rw [hz]
      have hfin : (runStartup hasApiKey env s).finalState = s := by
        simp [runStartup, hload, hf]
      refine ⟨?_, by rw [hfin]; exact hcons⟩
      intro p hp m hm
      have hp2 : p = (if hasApiKey then cached else cached.filter isFreeB) := by
        simpa [runStartup, hload, hf] using hp
      subst hp2
      exact Or.inr (hcachedPub cached hload m hm)
    | ok ids =>
      have hf : fetchFreshModels hasApiKey env s =
          (some (buildModels ids env.enrichment hasApiKey),
           { s with zenCache := some ids,
                    modelsCache := some (buildModelsCore ids env.enrichment) }) := by
        unfold fetchFreshModels; rw [hz]
      by_cases hemp : (buildModels ids env.enrichment hasApiKey).isEmpty = true
      · have hfin : (runStartup hasApiKey env s).finalState =
            ⟨some ids, some (buildModelsCore ids env.enrichment), s.freeIds⟩ := by
          simp [runStartup, hload, hf, hemp]
        refine ⟨?_, by rw [hfin]; exact hconsW ids s.freeIds⟩
        intro p hp m hm
        have hp2 : p = (if hasApiKey then cached else cached.filter isFreeB) := by
          simpa [runStartup, hload, hf, hemp] using hp
        subst hp2
        exact Or.inr (hcachedPub cached hload m hm)
      · have hfin : (runStartup hasApiKey env s).finalState =
            ⟨some ids, some (buildModelsCore ids env.enrichment),
             some (freeIdsOf (buildModels ids env.enrichment hasApiKey))⟩ := by
          simp [runStartup, hload, hf, hemp]
        refine ⟨?_, by rw [hfin]; exact hconsW ids _⟩
        intro p hp m hm
        have hp2 : p = (if hasApiKey then cached else cached.filter isFreeB) ∨
            p = buildModels ids env.enrichment hasApiKey := by
          simpa [runStartup, hload, hf, hemp] using hp
        rcases hp2 with hp2 | hp2
        · subst hp2
          exact Or.inr (hcachedPub cached hload m hm)
        · subst hp2
          exact Or.inl ⟨ids, rfl, mem_buildModels_id hwf hm⟩
  | none =>
    cases hz : fetchZenModels env.zenResponse with
    | error e =>
      have hf : fetchFreshModels hasApiKey env s = (none, s) := by
        unfold fetchFreshModels; rw [hz]
      have hfin : (runStartup hasApiKey env s).finalState = s := by
        simp [runStartup, hload, hf]
      refine ⟨?_, by rw [hfin]; exact hcons⟩
      intro p hp
      have : (runStartup hasApiKey env s).publishes = [] := by
        simp [runStartup, hload, hf]
      rw [this] at hp
      cases hp
    | ok ids =>
      have hf : fetchFreshModels hasApiKey env s =
          (some (buildModels ids env.enrichment hasApiKey),
           { s with zenCache := some ids,
                    modelsCache := some (buildModelsCore ids env.enrichment) }) := by
        unfold fetchFreshModels; rw [hz]
      by_cases hemp : (buildModels ids env.enrichment hasApiKey).isEmpty = true
      · have hfin : (runStartup hasApiKey env s).finalState =
            ⟨some ids, some (buildModelsCore ids env.enrichment), s.freeIds⟩ := by
          simp [runStartup, hload, hf, hemp]
        refine ⟨?_, by rw [hfin]; exact hconsW ids s.freeIds⟩
        intro p hp
        have : (runStartup hasApiKey env s).publishes = [] := by
          simp [runStartup, hload, hf, hemp]
        rw [this] at hp
        cases hp
      · have hfin : (runStartup hasApiKey env s).finalState =
            ⟨some ids, some (buildModelsCore ids env.enrichment),
             some (freeIdsOf (buildModels ids env.enrichment hasApiKey))⟩ := by
          simp [runStartup, hload, hf, hemp]
        refine ⟨?_, by rw [hfin]; exact hconsW ids _⟩
        intro p hp m hm
        have hp2 : p = buildModels ids env.enrichment hasApiKey := by
          simpa [runStartup, hload, hf, hemp] using hp
        subst hp2
        exact Or.inl ⟨ids, rfl, mem_buildModels_id hwf hm⟩

/-- C2 witness: a cold-start run with no enrichment publishes only
identifiers returned by the authoritative fetch. -/
theorem claim_C2_amended_witness :
    (∀ p ∈ (runStartup true ⟨some (.arr [⟨"m1"⟩]), none⟩ ⟨none, none, none⟩).publishes,
       ∀ m ∈ p,
         (∃ ids, fetchZenModels (some (.arr [⟨"m1"⟩])) = .ok ids ∧ m.id ∈ ids) ∨
         (∃ zc, (⟨none, none, none⟩ : CacheState).zenCache = some zc ∧ m.id ∈ zc)) ∧
    consistentState (runStartup true ⟨some (.arr [⟨"m1"⟩]), none⟩ ⟨none, none, none⟩).finalState :=
  claim_C2_amended true ⟨some (.arr [⟨"m1"⟩]), none⟩ ⟨none, none, none⟩
    (fun d h => by cases h) (fun ms hms => by cases hms)

end OpencodeZen
